import Mathlib

/-!
Shallow embedding of src/script.py, a Klaviyo segment-membership sync script.

The script fetches the current membership of a segment as a list of email
strings, then runs two phases against a local JSON cache file
(CACHE_FILE = "cache.json"):

  - update_cache(profiles): loads the cache (defaulting to an empty record on
    FileNotFoundError or json.JSONDecodeError), computes
    set(profiles) - set(cache["profiles"]), pushes a "Joined Segment" event per
    new email, and, when the difference is non-empty, appends the new emails to
    the cached list, stamps last_updated, and rewrites the file.
  - remove_stale_profiles(profiles): re-loads the cache (warning and returning
    on the same two exceptions), computes
    set(cache.get("profiles", [])) - set(profiles), pushes a "Left Segment"
    event per stale email, and, when non-empty, stores the remaining
    intersection, stamps last_updated, and rewrites the file.

main() calls fetch_profiles() and runs both phases only when the fetched list
is non-empty; fetch_profiles returns the empty list on any page failure.

Modelling conventions:
  - An identity is a Lean String; equality is exact string equality, as in
    Python.
  - The durable cache file is a CacheFile value: missing (open raises
    FileNotFoundError), readError (open or read raises some other OSError such
    as PermissionError, which the except clauses do not catch), invalidJson
    (json.load raises JSONDecodeError), or valid profiles? last_updated
    (a parsed JSON object; profiles? is none when the object has no
    "profiles" key, in which case line 95 cache["profiles"] raises KeyError).
  - Uncaught Python exceptions are modelled by Except.error.
  - Python set iteration order is unspecified; the model fixes one concrete
    enumeration of each set (dedup followed by filter).  Every property proved
    below is insensitive to the enumeration order.
  - Each phase returns the new file state plus a trace of externally visible
    events: Ev.load for an attempted read of the cache file, Ev.notify a for a
    notification attempt, Ev.save for a write of the cache file.
  - Notification delivery is a pure oracle deliver : String -> EventKind ->
    Bool (true when the POST returns 202).  push_event_to_klaviyo catches
    RequestException and only logs on non-202, so the oracle can influence
    nothing but the success field of the recorded attempt.
-/

/-- Kind of a lifecycle notification: the "Joined Segment" or "Left Segment"
metric name passed to push_event_to_klaviyo. -/
inductive EventKind
  | joined
  | left
deriving DecidableEq

/-- One notification attempt made by push_event_to_klaviyo: the email, the
event kind, and whether delivery succeeded (HTTP 202). -/
structure Attempt where
  email : String
  kind : EventKind
  success : Bool
deriving DecidableEq

/-- Model of push_event_to_klaviyo(email, event_name): the function always
returns (it catches RequestException and merely logs failures), so it is
modelled as producing the record of the attempt, with the delivery oracle
deciding only the success field. -/
def push_event_to_klaviyo (deliver : String → EventKind → Bool)
    (email : String) (k : EventKind) : Attempt :=
  { email := email, kind := k, success := deliver email k }

/-- State of the durable cache file (CACHE_FILE).  valid ps? lu is a parsed
JSON object with optional "profiles" list ps? and "last_updated" value lu
(none for JSON null or an absent key). -/
inductive CacheFile
  | missing
  | readError
  | invalidJson
  | valid (profiles? : Option (List String)) (last_updated : Option String)
deriving DecidableEq

/-- An uncaught Python exception: KeyError from cache["profiles"] on an object
without that key, or an OSError other than FileNotFoundError from open/read. -/
inductive PyError
  | keyError
  | osError
deriving DecidableEq

/-- Externally visible store and notifier events of one run, in order. -/
inductive Ev
  | load
  | notify (a : Attempt)
  | save
deriving DecidableEq

/-- Model of the Python expression list(set(xs) - set(ys)): one concrete
enumeration of the set difference, without duplicates. -/
def pySetDiff (xs ys : List String) : List String :=
  xs.dedup.filter fun x => decide (x ∉ ys)

/-- Result of lines 89-95 of update_cache: load the cache and access
cache["profiles"] and cache["last_updated"].  FileNotFoundError and
JSONDecodeError yield the empty default record; any other read error
propagates; a JSON object without a "profiles" key raises KeyError at
line 95. -/
def loadForUpdate : CacheFile → Except PyError (List String × Option String)
  | CacheFile.missing => Except.ok ([], none)
  | CacheFile.invalidJson => Except.ok ([], none)
  | CacheFile.readError => Except.error PyError.osError
  | CacheFile.valid none _ => Except.error PyError.keyError
  | CacheFile.valid (some ps) lu => Except.ok (ps, lu)

/-- Model of update_cache(profiles): compute new_profiles =
list(set(profiles) - set(cache["profiles"])); if non-empty, push a
"Joined Segment" event for each, extend the cached list and rewrite the file
with last_updated = now; otherwise leave the file untouched. -/
def update_cache (deliver : String → EventKind → Bool) (profiles : List String)
    (file : CacheFile) (now : String) : Except PyError (CacheFile × List Ev) :=
  match loadForUpdate file with
  | Except.error e => Except.error e
  | Except.ok (cached, _lu) =>
    let new_profiles := pySetDiff profiles cached
    if new_profiles.isEmpty then
      Except.ok (file, [Ev.load])
    else
      Except.ok
        (CacheFile.valid (some (cached ++ new_profiles)) (some now),
         Ev.load ::
           (new_profiles.map fun e =>
             Ev.notify (push_event_to_klaviyo deliver e EventKind.joined))
           ++ [Ev.save])

/-- Model of remove_stale_profiles(fetched_profiles): on FileNotFoundError or
JSONDecodeError it warns and returns without touching the file; otherwise it
computes stale = set(cache.get("profiles", [])) - set(fetched), pushes a
"Left Segment" event for each stale email, and, when non-empty, stores
list(current - stale) with last_updated = now. -/
def remove_stale_profiles (deliver : String → EventKind → Bool)
    (fetched : List String) (file : CacheFile) (now : String) :
    Except PyError (CacheFile × List Ev) :=
  match file with
  | CacheFile.readError => Except.error PyError.osError
  | CacheFile.missing => Except.ok (CacheFile.missing, [Ev.load])
  | CacheFile.invalidJson => Except.ok (CacheFile.invalidJson, [Ev.load])
  | CacheFile.valid ps? lu =>
    let cached := (ps?.getD []).dedup
    let stale := cached.filter fun x => decide (x ∉ fetched)
    if stale.isEmpty then
      Except.ok (CacheFile.valid ps? lu, [Ev.load])
    else
      Except.ok
        (CacheFile.valid
          (some (cached.filter fun x => decide (x ∈ fetched))) (some now),
         Ev.load ::
           (stale.map fun e =>
             Ev.notify (push_event_to_klaviyo deliver e EventKind.left))
           ++ [Ev.save])

/-- One reconciliation cycle as main() runs it once the fetch gate has passed:
the add phase followed by the removal phase on the file the add phase left,
with an uncaught exception in either phase aborting the run. -/
def runPhases (deliver : String → EventKind → Bool) (profiles : List String)
    (file : CacheFile) (now1 now2 : String) :
    Except PyError (CacheFile × List Ev) :=
  match update_cache deliver profiles file now1 with
  | Except.error e => Except.error e
  | Except.ok (file1, t1) =>
    match remove_stale_profiles deliver profiles file1 now2 with
    | Except.error e => Except.error e
    | Except.ok (file2, t2) => Except.ok (file2, t1 ++ t2)

/-- Model of main() given the already-fetched profile list: if the list is
empty the script only logs a warning and exits, touching nothing; otherwise it
runs both phases. -/
def main_run (deliver : String → EventKind → Bool) (profiles : List String)
    (file : CacheFile) (now1 now2 : String) :
    Except PyError (CacheFile × List Ev) :=
  if profiles.isEmpty then Except.ok (file, [])
  else runPhases deliver profiles file now1 now2

/-- Model of the pagination loop of fetch_profiles: pages is the sequence of
page responses the API would serve, some emails for a 200 response and none
for a failing one; a failing page discards everything and returns []. -/
def fetch_go (acc : List String) : List (Option (List String)) → List String
  | [] => acc
  | none :: _ => []
  | some page :: rest => fetch_go (acc ++ page) rest

/-- Model of fetch_profiles(): accumulate emails page by page, returning the
empty list as soon as any page request fails. -/
def fetch_profiles (pages : List (Option (List String))) : List String :=
  fetch_go [] pages

/-- Model of main(): fetch, then gate the whole reconciliation on the fetched
list being non-empty.  (Named script_main because Lean reserves main for
executables.) -/
def script_main (deliver : String → EventKind → Bool)
    (pages : List (Option (List String))) (file : CacheFile)
    (now1 now2 : String) : Except PyError (CacheFile × List Ev) :=
  main_run deliver (fetch_profiles pages) file now1 now2

/-- Notification attempts recorded in a trace, in order. -/
def notifies (t : List Ev) : List Attempt :=
  t.filterMap fun e =>
    match e with
    | Ev.notify a => some a
    | _ => none

/-- Whether an attempt is a "Joined Segment" event. -/
def Attempt.isJoined : Attempt → Bool
  | ⟨_, EventKind.joined, _⟩ => true
  | ⟨_, EventKind.left, _⟩ => false

/-- Emails of the "Joined Segment" attempts of a trace, in order. -/
def joinedEmails (t : List Ev) : List String :=
  ((notifies t).filter Attempt.isJoined).map Attempt.email

/-- Emails of the "Left Segment" attempts of a trace, in order. -/
def leftEmails (t : List Ev) : List String :=
  ((notifies t).filter fun a => !a.isJoined).map Attempt.email

/-- Whether an event is a write of the cache file. -/
def Ev.isSave : Ev → Bool
  | Ev.save => true
  | _ => false

/-- Whether an event is an attempted read of the cache file. -/
def Ev.isLoad : Ev → Bool
  | Ev.load => true
  | _ => false

/-- Member set recorded in a cache file, empty when no well-formed record is
present. -/
def fileMembers : CacheFile → Finset String
  | CacheFile.valid (some ps) _ => ps.toFinset
  | _ => ∅

/-- The last_updated value recorded in a cache file, if any. -/
def fileLastUpdated : CacheFile → Option String
  | CacheFile.valid _ lu => lu
  | _ => none

/-- An event with its delivery outcome erased: used to state that the delivery
oracle influences nothing but the recorded outcome. -/
def Ev.strip : Ev → Ev
  | Ev.notify a => Ev.notify { a with success := true }
  | e => e

/-- A run result with every delivery outcome erased. -/
def stripRun : Except PyError (CacheFile × List Ev) →
    Except PyError (CacheFile × List Ev)
  | Except.error e => Except.error e
  | Except.ok (f, t) => Except.ok (f, t.map Ev.strip)

/-! Supporting lemmas about the set enumeration and the trace extractors. -/

lemma mem_pySetDiff {xs ys : List String} {x : String} :
    x ∈ pySetDiff xs ys ↔ x ∈ xs ∧ x ∉ ys := by
  simp [pySetDiff, List.mem_filter, List.mem_dedup]

lemma nodup_pySetDiff (xs ys : List String) : (pySetDiff xs ys).Nodup :=
  (List.nodup_dedup xs).filter _

lemma toFinset_pySetDiff (xs ys : List String) :
    (pySetDiff xs ys).toFinset = xs.toFinset \ ys.toFinset := by
  ext a
  simp [mem_pySetDiff]

lemma pySetDiff_eq_nil_iff {xs ys : List String} :
    pySetDiff xs ys = [] ↔ xs.toFinset ⊆ ys.toFinset := by
  constructor
  · intro h a ha
    rw [List.mem_toFinset] at ha
    by_contra hy
    have : a ∈ pySetDiff xs ys := mem_pySetDiff.mpr ⟨ha, fun hm => hy (List.mem_toFinset.mpr hm)⟩
    simp [h] at this
  · intro h
    rw [List.eq_nil_iff_forall_not_mem]
    intro a ha
    rcases mem_pySetDiff.mp ha with ⟨hx, hy⟩
    exact hy (List.mem_toFinset.mp (h (List.mem_toFinset.mpr hx)))

lemma pySetDiff_nil (xs : List String) : pySetDiff xs [] = xs.dedup := by
  simp [pySetDiff]

lemma toFinset_append_pySetDiff (ps profiles : List String) :
    (ps ++ pySetDiff profiles ps).toFinset = ps.toFinset ∪ profiles.toFinset := by
  ext a
  simp [mem_pySetDiff]
  tauto

lemma toFinset_filter_mem (xs ys : List String) :
    ((xs.filter fun x => decide (x ∈ ys)).toFinset : Finset String)
      = xs.toFinset ∩ ys.toFinset := by
  ext a
  simp [List.mem_filter]

lemma joinedEmails_append (t1 t2 : List Ev) :
    joinedEmails (t1 ++ t2) = joinedEmails t1 ++ joinedEmails t2 := by
  simp [joinedEmails, notifies, List.filterMap_append]

lemma leftEmails_append (t1 t2 : List Ev) :
    leftEmails (t1 ++ t2) = leftEmails t1 ++ leftEmails t2 := by
  simp [leftEmails, notifies, List.filterMap_append]

lemma joinedEmails_join_trace (d : String → EventKind → Bool) (new : List String) :
    joinedEmails (Ev.load ::
        (new.map fun e => Ev.notify (push_event_to_klaviyo d e EventKind.joined))
        ++ [Ev.save]) = new := by
  induction new with
  | nil => rfl
  | cons x xs ih =>
    simpa [joinedEmails, notifies, push_event_to_klaviyo, Attempt.isJoined]
      using ih

lemma leftEmails_join_trace (d : String → EventKind → Bool) (new : List String) :
    leftEmails (Ev.load ::
        (new.map fun e => Ev.notify (push_event_to_klaviyo d e EventKind.joined))
        ++ [Ev.save]) = [] := by
  induction new with
  | nil => rfl
  | cons x xs ih =>
    simp [leftEmails, notifies, push_event_to_klaviyo, Attempt.isJoined]

lemma joinedEmails_left_trace (d : String → EventKind → Bool) (stale : List String) :
    joinedEmails (Ev.load ::
        (stale.map fun e => Ev.notify (push_event_to_klaviyo d e EventKind.left))
        ++ [Ev.save]) = [] := by
  induction stale with
  | nil => rfl
  | cons x xs ih =>
    simp [joinedEmails, notifies, push_event_to_klaviyo, Attempt.isJoined]

lemma leftEmails_left_trace (d : String → EventKind → Bool) (stale : List String) :
    leftEmails (Ev.load ::
        (stale.map fun e => Ev.notify (push_event_to_klaviyo d e EventKind.left))
        ++ [Ev.save]) = stale := by
  induction stale with
  | nil => rfl
  | cons x xs ih =>
    simpa [leftEmails, notifies, push_event_to_klaviyo, Attempt.isJoined]
      using ih

lemma toFinset_dedup_filter_mem (xs ys : List String) :
    ((xs.dedup.filter fun x => decide (x ∈ ys)).toFinset : Finset String)
      = xs.toFinset ∩ ys.toFinset := by
  ext a
  simp [List.mem_filter, List.mem_dedup]

lemma ne_nil_toFinset {xs : List String} (h : xs ≠ []) : xs.toFinset ≠ ∅ := by
  intro he
  exact h ((List.toFinset_eq_empty_iff xs).mp he)

lemma update_cache_eq_no_new (deliver : String → EventKind → Bool)
    (profiles ps : List String) (lu : Option String) (n : String)
    (h : pySetDiff profiles ps = []) :
    update_cache deliver profiles (CacheFile.valid (some ps) lu) n
      = Except.ok (CacheFile.valid (some ps) lu, [Ev.load]) := by
  simp [update_cache, loadForUpdate, h]

lemma update_cache_eq_new (deliver : String → EventKind → Bool)
    (profiles ps : List String) (lu : Option String) (n : String)
    (h : pySetDiff profiles ps ≠ []) :
    update_cache deliver profiles (CacheFile.valid (some ps) lu) n
      = Except.ok (CacheFile.valid (some (ps ++ pySetDiff profiles ps)) (some n),
          Ev.load :: ((pySetDiff profiles ps).map fun e =>
            Ev.notify (push_event_to_klaviyo deliver e EventKind.joined))
          ++ [Ev.save]) := by
  simp [update_cache, loadForUpdate, List.isEmpty_iff, h]

lemma remove_eq_no_stale (deliver : String → EventKind → Bool)
    (fetched ps : List String) (lu : Option String) (n : String)
    (h : pySetDiff ps fetched = []) :
    remove_stale_profiles deliver fetched (CacheFile.valid (some ps) lu) n
      = Except.ok (CacheFile.valid (some ps) lu, [Ev.load]) := by
  have h' : (ps.dedup.filter fun x => decide (x ∉ fetched)) = [] := h
  simp only [remove_stale_profiles, Option.getD_some]
  rw [h']
  rfl

lemma remove_eq_stale (deliver : String → EventKind → Bool)
    (fetched ps : List String) (lu : Option String) (n : String)
    (h : pySetDiff ps fetched ≠ []) :
    remove_stale_profiles deliver fetched (CacheFile.valid (some ps) lu) n
      = Except.ok (CacheFile.valid
            (some (ps.dedup.filter fun x => decide (x ∈ fetched))) (some n),
          Ev.load :: ((pySetDiff ps fetched).map fun e =>
            Ev.notify (push_event_to_klaviyo deliver e EventKind.left))
          ++ [Ev.save]) := by
  have h' : (ps.dedup.filter fun x => decide (x ∉ fetched)) ≠ [] := h
  simp only [remove_stale_profiles, Option.getD_some]
  rw [if_neg (by simpa [List.isEmpty_iff] using h')]
  rfl

/-- Characterization of one full reconciliation cycle started from a
well-formed cache record {profiles: ps, last_updated: lu}: the run succeeds,
the final record's member set mirrors the fetched list exactly, the joined and
left attempt emails enumerate fetched - prior and prior - fetched without
duplicates, and last_updated moves exactly when one of the differences is
non-empty. -/
lemma runPhases_valid_some (deliver : String → EventKind → Bool)
    (profiles ps : List String) (lu : Option String) (n1 n2 : String) :
    ∃ qs lu2 t,
      runPhases deliver profiles (CacheFile.valid (some ps) lu) n1 n2
        = Except.ok (CacheFile.valid (some qs) lu2, t) ∧
      qs.toFinset = profiles.toFinset ∧
      (joinedEmails t).Nodup ∧
      (leftEmails t).Nodup ∧
      (joinedEmails t).toFinset = profiles.toFinset \ ps.toFinset ∧
      (leftEmails t).toFinset = ps.toFinset \ profiles.toFinset ∧
      (ps.toFinset \ profiles.toFinset ≠ ∅ → lu2 = some n2) ∧
      (ps.toFinset \ profiles.toFinset = ∅ → profiles.toFinset \ ps.toFinset ≠ ∅ →
        lu2 = some n1) ∧
      (profiles.toFinset \ ps.toFinset = ∅ → ps.toFinset \ profiles.toFinset = ∅ →
        qs = ps ∧ lu2 = lu ∧ t.filter Ev.isSave = []) := by
  rcases eq_or_ne (pySetDiff profiles ps) [] with hA | hA
  · have hFP : profiles.toFinset ⊆ ps.toFinset := pySetDiff_eq_nil_iff.mp hA
    have hFPe : profiles.toFinset \ ps.toFinset = ∅ :=
      Finset.sdiff_eq_empty_iff_subset.mpr hFP
    rcases eq_or_ne (pySetDiff ps profiles) [] with hB | hB
    · have hPF : ps.toFinset ⊆ profiles.toFinset := pySetDiff_eq_nil_iff.mp hB
      have hPFe : ps.toFinset \ profiles.toFinset = ∅ :=
        Finset.sdiff_eq_empty_iff_subset.mpr hPF
      refine ⟨ps, lu, [Ev.load, Ev.load], ?_, ?_, ?_, ?_, ?_, ?_, ?_, ?_, ?_⟩
      · simp [runPhases, update_cache_eq_no_new deliver profiles ps lu n1 hA,
              remove_eq_no_stale deliver profiles ps lu n2 hB]
      · exact Finset.Subset.antisymm hPF hFP
      · simp [joinedEmails, notifies]
      · simp [leftEmails, notifies]
      · rw [show joinedEmails [Ev.load, Ev.load] = [] from rfl]
        simp [hFPe]
      · rw [show leftEmails [Ev.load, Ev.load] = [] from rfl]
        simp [hPFe]
      · intro hph
        exact absurd hPFe hph
      · intro _ hph
        exact absurd hFPe hph
      · intro _ _
        exact ⟨rfl, rfl, rfl⟩
    · have hPFne : ps.toFinset \ profiles.toFinset ≠ ∅ := by
        intro he
        exact hB (pySetDiff_eq_nil_iff.mpr (Finset.sdiff_eq_empty_iff_subset.mp he))
      refine ⟨ps.dedup.filter fun x => decide (x ∈ profiles), some n2,
        [Ev.load] ++ (Ev.load :: ((pySetDiff ps profiles).map fun e =>
          Ev.notify (push_event_to_klaviyo deliver e EventKind.left)) ++ [Ev.save]),
        ?_, ?_, ?_, ?_, ?_, ?_, ?_, ?_, ?_⟩
      · simp [runPhases, update_cache_eq_no_new deliver profiles ps lu n1 hA,
              remove_eq_stale deliver profiles ps lu n2 hB]
      · rw [toFinset_dedup_filter_mem]
        exact Finset.inter_eq_right.mpr hFP
      · rw [joinedEmails_append, joinedEmails_left_trace]
        simp [joinedEmails, notifies]
      · rw [leftEmails_append, leftEmails_left_trace]
        simp [leftEmails, notifies]
        exact nodup_pySetDiff ps profiles
      · rw [joinedEmails_append, joinedEmails_left_trace]
        simp [joinedEmails, notifies, hFPe]
      · rw [leftEmails_append, leftEmails_left_trace]
        simp [leftEmails, notifies, toFinset_pySetDiff]
      · intro _
        rfl
      · intro hph _
        exact absurd hph hPFne
      · intro _ hph
        exact absurd hph hPFne
  · have hFPne : profiles.toFinset \ ps.toFinset ≠ ∅ := by
      rw [← toFinset_pySetDiff]
      exact ne_nil_toFinset hA
    have h1 := update_cache_eq_new deliver profiles ps lu n1 hA
    rcases eq_or_ne (pySetDiff (ps ++ pySetDiff profiles ps) profiles) [] with hB | hB
    · have hsub := pySetDiff_eq_nil_iff.mp hB
      rw [toFinset_append_pySetDiff] at hsub
      have hPF : ps.toFinset ⊆ profiles.toFinset := fun a ha =>
        hsub (Finset.mem_union_left _ ha)
      have hPFe : ps.toFinset \ profiles.toFinset = ∅ :=
        Finset.sdiff_eq_empty_iff_subset.mpr hPF
      refine ⟨ps ++ pySetDiff profiles ps, some n1,
        (Ev.load :: ((pySetDiff profiles ps).map fun e =>
          Ev.notify (push_event_to_klaviyo deliver e EventKind.joined)) ++ [Ev.save])
          ++ [Ev.load],
        ?_, ?_, ?_, ?_, ?_, ?_, ?_, ?_, ?_⟩
      · simp [runPhases, h1,
              remove_eq_no_stale deliver profiles (ps ++ pySetDiff profiles ps)
                (some n1) n2 hB]
      · rw [toFinset_append_pySetDiff]
        exact Finset.union_eq_right.mpr hPF
      · rw [joinedEmails_append, joinedEmails_join_trace]
        simp [joinedEmails, notifies]
        exact nodup_pySetDiff profiles ps
      · rw [leftEmails_append, leftEmails_join_trace]
        simp [leftEmails, notifies]
      · rw [joinedEmails_append, joinedEmails_join_trace]
        simp [joinedEmails, notifies, toFinset_pySetDiff]
      · rw [leftEmails_append, leftEmails_join_trace]
        simp [leftEmails, notifies, hPFe]
      · intro hph
        exact absurd hPFe hph
      · intro _ _
        rfl
      · intro hph _
        exact absurd hph hFPne
    · have hstFin : (pySetDiff (ps ++ pySetDiff profiles ps) profiles).toFinset
          = ps.toFinset \ profiles.toFinset := by
        rw [toFinset_pySetDiff, toFinset_append_pySetDiff, Finset.union_sdiff_right]
      have hPFne : ps.toFinset \ profiles.toFinset ≠ ∅ := by
        rw [← hstFin]
        exact ne_nil_toFinset hB
      refine ⟨(ps ++ pySetDiff profiles ps).dedup.filter fun x => decide (x ∈ profiles),
        some n2,
        (Ev.load :: ((pySetDiff profiles ps).map fun e =>
          Ev.notify (push_event_to_klaviyo deliver e EventKind.joined)) ++ [Ev.save])
          ++ (Ev.load :: ((pySetDiff (ps ++ pySetDiff profiles ps) profiles).map fun e =>
          Ev.notify (push_event_to_klaviyo deliver e EventKind.left)) ++ [Ev.save]),
        ?_, ?_, ?_, ?_, ?_, ?_, ?_, ?_, ?_⟩
      · simp [runPhases, h1,
              remove_eq_stale deliver profiles (ps ++ pySetDiff profiles ps)
                (some n1) n2 hB]
      · rw [toFinset_dedup_filter_mem, toFinset_append_pySetDiff]
        exact Finset.union_inter_cancel_right
      · rw [joinedEmails_append, joinedEmails_join_trace, joinedEmails_left_trace]
        simp
        exact nodup_pySetDiff profiles ps
      · rw [leftEmails_append, leftEmails_join_trace, leftEmails_left_trace]
        simp
        exact nodup_pySetDiff (ps ++ pySetDiff profiles ps) profiles
      · rw [joinedEmails_append, joinedEmails_join_trace, joinedEmails_left_trace]
        simp [toFinset_pySetDiff]
      · rw [leftEmails_append, leftEmails_join_trace, leftEmails_left_trace]
        simp
        exact hstFin
      · intro _
        rfl
      · intro hph _
        exact absurd hph hPFne
      · intro _ hph
        exact absurd hph hPFne

lemma toFinset_dedup (xs : List String) : xs.dedup.toFinset = xs.toFinset := by
  ext a
  simp [List.mem_dedup]

/-- When the add phase recovers to the empty default record (missing file or
invalid JSON) and the fetched list is non-empty, it necessarily finds every
fetched email new, notifies each once, and writes a well-formed record. -/
lemma update_cache_empty_load (deliver : String → EventKind → Bool)
    (profiles : List String) (file : CacheFile) (n : String)
    (hl : loadForUpdate file = Except.ok ([], none)) (hne : profiles ≠ []) :
    update_cache deliver profiles file n
      = Except.ok (CacheFile.valid (some profiles.dedup) (some n),
          Ev.load :: (profiles.dedup.map fun e =>
            Ev.notify (push_event_to_klaviyo deliver e EventKind.joined))
          ++ [Ev.save]) := by
  have hdn : profiles.dedup ≠ [] := fun hdd => hne ((List.dedup_eq_nil profiles).mp hdd)
  simp only [update_cache, hl]
  rw [pySetDiff_nil]
  rw [if_neg (by simpa [List.isEmpty_iff] using hdn)]
  simp

lemma fetch_go_of_fail (pages : List (Option (List String)))
    (h : none ∈ pages) : ∀ acc, fetch_go acc pages = [] := by
  induction pages with
  | nil => simp at h
  | cons p rest ih =>
    intro acc
    cases p with
    | none => rfl
    | some page =>
      have hr : none ∈ rest := by simpa using h
      exact ih hr (acc ++ page)

lemma filter_isLoad_notify (as : List Attempt) :
    (as.map Ev.notify).filter Ev.isLoad = [] := by
  induction as with
  | nil => rfl
  | cons a l ih => simp [Ev.isLoad, ih]

lemma filter_isSave_notify (as : List Attempt) :
    (as.map Ev.notify).filter Ev.isSave = [] := by
  induction as with
  | nil => rfl
  | cons a l ih => simp [Ev.isSave, ih]

/-- Shape of the store trace of one phase: one attempted read, then the
notification attempts of the phase, then at most one write, the write coming
after every notification attempt of the phase. -/
def PhaseTrace (t : List Ev) : Prop :=
  ∃ as : List Attempt,
    t = Ev.load :: as.map Ev.notify ∨ t = Ev.load :: (as.map Ev.notify ++ [Ev.save])

lemma PhaseTrace.load_count {t : List Ev} (h : PhaseTrace t) :
    (t.filter Ev.isLoad).length = 1 := by
  rcases h with ⟨as, h | h⟩ <;> subst h <;>
    simp [Ev.isLoad, List.filter_append, filter_isLoad_notify]

lemma PhaseTrace.save_count {t : List Ev} (h : PhaseTrace t) :
    (t.filter Ev.isSave).length ≤ 1 := by
  rcases h with ⟨as, h | h⟩ <;> subst h <;>
    simp [Ev.isSave, List.filter_append, filter_isSave_notify]

lemma phaseTrace_of_update (deliver : String → EventKind → Bool)
    (profiles : List String) (file : CacheFile) (n : String)
    (f1 : CacheFile) (t1 : List Ev)
    (h : update_cache deliver profiles file n = Except.ok (f1, t1)) :
    PhaseTrace t1 := by
  rcases hl : loadForUpdate file with e | ⟨cached, lu0⟩
  · simp [update_cache, hl] at h
  · simp only [update_cache, hl] at h
    by_cases hb : (pySetDiff profiles cached).isEmpty
    · rw [if_pos hb] at h
      obtain ⟨-, ht⟩ := by simpa using h
      exact ⟨[], Or.inl ht.symm⟩
    · rw [if_neg hb] at h
      obtain ⟨-, ht⟩ := by simpa using h
      refine ⟨(pySetDiff profiles cached).map fun e =>
        push_event_to_klaviyo deliver e EventKind.joined, Or.inr ?_⟩
      rw [← ht, List.map_map]
      rfl

lemma phaseTrace_of_remove (deliver : String → EventKind → Bool)
    (fetched : List String) (file : CacheFile) (n : String)
    (f2 : CacheFile) (t2 : List Ev)
    (h : remove_stale_profiles deliver fetched file n = Except.ok (f2, t2)) :
    PhaseTrace t2 := by
  cases file with
  | readError => simp [remove_stale_profiles] at h
  | missing =>
    obtain ⟨-, ht⟩ := by simpa [remove_stale_profiles] using h
    exact ⟨[], Or.inl ht.symm⟩
  | invalidJson =>
    obtain ⟨-, ht⟩ := by simpa [remove_stale_profiles] using h
    exact ⟨[], Or.inl ht.symm⟩
  | valid ps? lu =>
    simp only [remove_stale_profiles] at h
    by_cases hb : (((ps?.getD []).dedup).filter fun x => decide (x ∉ fetched)).isEmpty
    · rw [if_pos hb] at h
      obtain ⟨-, ht⟩ := by simpa using h
      exact ⟨[], Or.inl ht.symm⟩
    · rw [if_neg hb] at h
      obtain ⟨-, ht⟩ := by simpa using h
      refine ⟨(((ps?.getD []).dedup).filter fun x => decide (x ∉ fetched)).map fun e =>
        push_event_to_klaviyo deliver e EventKind.left, Or.inr ?_⟩
      rw [← ht, List.map_map]
      simp [Function.comp]

/-- The delivery oracle can change nothing about the add phase but the
recorded delivery outcomes: push_event_to_klaviyo swallows every failure. -/
lemma update_cache_strip_eq (d1 d2 : String → EventKind → Bool)
    (profiles : List String) (file : CacheFile) (n : String) :
    stripRun (update_cache d1 profiles file n)
      = stripRun (update_cache d2 profiles file n) := by
  rcases hl : loadForUpdate file with e | ⟨cached, lu0⟩
  · simp [update_cache, hl]
  · simp only [update_cache, hl]
    by_cases hb : (pySetDiff profiles cached).isEmpty
    · rw [if_pos hb, if_pos hb]
    · rw [if_neg hb, if_neg hb]
      simp [stripRun, List.map_map, Function.comp, Ev.strip, push_event_to_klaviyo]

/-- The delivery oracle can change nothing about the removal phase but the
recorded delivery outcomes. -/
lemma remove_strip_eq (d1 d2 : String → EventKind → Bool)
    (fetched : List String) (file : CacheFile) (n : String) :
    stripRun (remove_stale_profiles d1 fetched file n)
      = stripRun (remove_stale_profiles d2 fetched file n) := by
  cases file with
  | readError => rfl
  | missing => rfl
  | invalidJson => rfl
  | valid ps? lu =>
    simp only [remove_stale_profiles]
    by_cases hb : (((ps?.getD []).dedup).filter fun x => decide (x ∉ fetched)).isEmpty
    · rw [if_pos hb, if_pos hb]
    · rw [if_neg hb, if_neg hb]
      simp [stripRun, List.map_map, Function.comp, Ev.strip, push_event_to_klaviyo]

lemma runPhases_strip_eq (d1 d2 : String → EventKind → Bool)
    (profiles : List String) (file : CacheFile) (n1 n2 : String) :
    stripRun (runPhases d1 profiles file n1 n2)
      = stripRun (runPhases d2 profiles file n1 n2) := by
  have h1 := update_cache_strip_eq d1 d2 profiles file n1
  rcases hu1 : update_cache d1 profiles file n1 with e1 | ⟨f1, t1⟩ <;>
    rcases hu2 : update_cache d2 profiles file n1 with e2 | ⟨g1, s1⟩ <;>
    rw [hu1, hu2] at h1 <;> simp [stripRun] at h1
  · simp [runPhases, hu1, hu2, stripRun, h1]
  · obtain ⟨hf, ht⟩ := h1
    subst hf
    have h2 := remove_strip_eq d1 d2 profiles f1 n2
    rcases hr1 : remove_stale_profiles d1 profiles f1 n2 with e3 | ⟨f2, t2⟩ <;>
      rcases hr2 : remove_stale_profiles d2 profiles f1 n2 with e4 | ⟨g2, s2⟩ <;>
      rw [hr1, hr2] at h2 <;> simp [stripRun] at h2
    · simp [runPhases, hu1, hu2, hr1, hr2, stripRun, h2]
    · obtain ⟨hf2, ht2⟩ := h2
      subst hf2
      simp [runPhases, hu1, hu2, hr1, hr2, stripRun, ht, ht2]

/-- C1: Convergence.  For every prior persisted state the add phase can load
(a well-formed cache record, or the empty default recovered from a missing
file or invalid JSON) and every non-empty fetched list, one full
reconciliation cycle (add phase then removal phase) leaves the persisted
member set equal to the fetched set exactly, regardless of the prior
members. -/
theorem convergence_exact_mirror (deliver : String → EventKind → Bool)
    (profiles : List String) (file : CacheFile) (cached : List String)
    (lu0 : Option String) (n1 n2 : String) (hne : profiles ≠ [])
    (hload : loadForUpdate file = Except.ok (cached, lu0)) :
    ∃ qs lu2 t,
      main_run deliver profiles file n1 n2
        = Except.ok (CacheFile.valid (some qs) lu2, t) ∧
      qs.toFinset = profiles.toFinset := by
  have hmr : main_run deliver profiles file n1 n2
      = runPhases deliver profiles file n1 n2 := by
    simp [main_run, List.isEmpty_iff, hne]
  cases file with
  | readError => simp [loadForUpdate] at hload
  | valid ps? lu =>
    cases ps? with
    | none => simp [loadForUpdate] at hload
    | some ps =>
      obtain ⟨qs, lu2, t, hrun, hqs, -, -, -, -, -, -, -⟩ :=
        runPhases_valid_some deliver profiles ps lu n1 n2
      exact ⟨qs, lu2, t, by rw [hmr]; exact hrun, hqs⟩
  | missing =>
    have hB : pySetDiff profiles.dedup profiles = [] := by
      apply pySetDiff_eq_nil_iff.mpr
      rw [toFinset_dedup]
    refine ⟨profiles.dedup, some n1,
      (Ev.load :: (profiles.dedup.map fun e =>
        Ev.notify (push_event_to_klaviyo deliver e EventKind.joined)) ++ [Ev.save])
        ++ [Ev.load], ?_, toFinset_dedup profiles⟩
    rw [hmr]
    simp [runPhases,
          update_cache_empty_load deliver profiles CacheFile.missing n1 rfl hne,
          remove_eq_no_stale deliver profiles profiles.dedup (some n1) n2 hB]
  | invalidJson =>
    have hB : pySetDiff profiles.dedup profiles = [] := by
      apply pySetDiff_eq_nil_iff.mpr
      rw [toFinset_dedup]
    refine ⟨profiles.dedup, some n1,
      (Ev.load :: (profiles.dedup.map fun e =>
        Ev.notify (push_event_to_klaviyo deliver e EventKind.joined)) ++ [Ev.save])
        ++ [Ev.load], ?_, toFinset_dedup profiles⟩
    rw [hmr]
    simp [runPhases,
          update_cache_empty_load deliver profiles CacheFile.invalidJson n1 rfl hne,
          remove_eq_no_stale deliver profiles profiles.dedup (some n1) n2 hB]

/-- Witness for convergence_exact_mirror at a concrete input: prior members
{a, c}, fetched [a, b]. -/
theorem convergence_exact_mirror_witness :
    ∃ qs lu2 t,
      main_run (fun _ _ => true) ["a", "b"]
          (CacheFile.valid (some ["a", "c"]) none) "t1" "t2"
        = Except.ok (CacheFile.valid (some qs) lu2, t) ∧
      qs.toFinset = (["a", "b"] : List String).toFinset :=
  convergence_exact_mirror (fun _ _ => true) ["a", "b"]
    (CacheFile.valid (some ["a", "c"]) none) ["a", "c"] none "t1" "t2"
    (by decide) rfl

/-- C2: Diff correctness.  For every fetched list and prior cache record, the
set of joined-notification emails equals fetched - prior.members and the set
of left-notification emails equals prior.members - fetched, under exact
string equality, even though the removal phase recomputes its difference
against the cache as re-read after the add phase wrote it. -/
theorem diff_sets_exact (deliver : String → EventKind → Bool)
    (profiles ps : List String) (lu : Option String) (n1 n2 : String) :
    ∃ qs lu2 t,
      runPhases deliver profiles (CacheFile.valid (some ps) lu) n1 n2
        = Except.ok (CacheFile.valid (some qs) lu2, t) ∧
      (joinedEmails t).toFinset = profiles.toFinset \ ps.toFinset ∧
      (leftEmails t).toFinset = ps.toFinset \ profiles.toFinset := by
  obtain ⟨qs, lu2, t, hrun, -, -, -, hj, hl, -, -, -⟩ :=
    runPhases_valid_some deliver profiles ps lu n1 n2
  exact ⟨qs, lu2, t, hrun, hj, hl⟩

/-- C3 (as amended): per-phase store discipline.  In every reconciliation
cycle that completes, the trace decomposes into the add-phase trace followed
by the removal-phase trace; each phase reads the cache record exactly once and
writes it at most once, with the write coming after that phase's notification
attempts.  The cycle as a whole therefore reads the record exactly twice and
writes it up to twice — not once — and the add-phase write precedes the
removal phase's notification attempts. -/
theorem store_discipline_per_phase (deliver : String → EventKind → Bool)
    (profiles : List String) (file : CacheFile) (n1 n2 : String)
    (f2 : CacheFile) (t : List Ev)
    (h : runPhases deliver profiles file n1 n2 = Except.ok (f2, t)) :
    ∃ t1 t2, t = t1 ++ t2 ∧ PhaseTrace t1 ∧ PhaseTrace t2 ∧
      (t.filter Ev.isLoad).length = 2 ∧ (t.filter Ev.isSave).length ≤ 2 := by
  rcases hu : update_cache deliver profiles file n1 with e | ⟨f1, t1⟩
  · simp [runPhases, hu] at h
  · rcases hr : remove_stale_profiles deliver profiles f1 n2 with e | ⟨f2x, t2⟩
    · simp [runPhases, hu, hr] at h
    · have hh : (Except.ok (f2x, t1 ++ t2) : Except PyError (CacheFile × List Ev))
          = Except.ok (f2, t) := by
        rw [← h]
        simp [runPhases, hu, hr]
      obtain ⟨-, ht⟩ := by simpa using hh
      have p1 := phaseTrace_of_update deliver profiles file n1 f1 t1 hu
      have p2 := phaseTrace_of_remove deliver profiles f1 n2 f2x t2 hr
      refine ⟨t1, t2, ht.symm, p1, p2, ?_, ?_⟩
      · rw [← ht, List.filter_append, List.length_append,
            p1.load_count, p2.load_count]
      · rw [← ht, List.filter_append, List.length_append]
        exact Nat.add_le_add p1.save_count p2.save_count

/-- Witness for store_discipline_per_phase at a concrete run (prior {a},
fetched [a]: neither phase writes, both phases read). -/
theorem store_discipline_per_phase_witness :
    ∃ t1 t2, ([Ev.load, Ev.load] : List Ev) = t1 ++ t2 ∧
      PhaseTrace t1 ∧ PhaseTrace t2 ∧
      (([Ev.load, Ev.load] : List Ev).filter Ev.isLoad).length = 2 ∧
      (([Ev.load, Ev.load] : List Ev).filter Ev.isSave).length ≤ 2 :=
  store_discipline_per_phase (fun _ _ => true) ["a"]
    (CacheFile.valid (some ["a"]) none) "t1" "t2"
    (CacheFile.valid (some ["a"]) none) [Ev.load, Ev.load] (by rfl)

/-- Counterexample to C3 as stated: with prior members {a} and fetched [b],
one run reads the record twice and writes it twice, and the first write
(index 2 of the trace) precedes the left-notification attempt (index 4), so
the record is neither read once, nor written at most once, nor written only
after all notification attempts of the run. -/
theorem store_discipline_counterexample :
    main_run (fun _ _ => true) ["b"] (CacheFile.valid (some ["a"]) none)
        "t1" "t2"
      = Except.ok (CacheFile.valid (some ["b"]) (some "t2"),
          [Ev.load,
           Ev.notify { email := "b", kind := EventKind.joined, success := true },
           Ev.save,
           Ev.load,
           Ev.notify { email := "a", kind := EventKind.left, success := true },
           Ev.save]) := by
  rfl

/-- C4 (as amended): loading the persisted state recovers without raising
exactly for a missing cache file or syntactically invalid JSON: there the add
phase proceeds with the empty default record {profiles: [], last_updated:
null} and the removal phase warns and skips without touching the file (which
coincides observably with treating the prior as empty).  An
unreadable-but-present file, or well-formed JSON lacking the "profiles" key,
instead raises an uncaught exception (see the counterexample). -/
theorem load_recovery_missing_or_invalid (deliver : String → EventKind → Bool)
    (profiles : List String) (file : CacheFile) (n : String)
    (h : file = CacheFile.missing ∨ file = CacheFile.invalidJson) :
    loadForUpdate file = Except.ok ([], none) ∧
    (∃ out, update_cache deliver profiles file n = Except.ok out) ∧
    remove_stale_profiles deliver profiles file n
      = Except.ok (file, [Ev.load]) := by
  have hup : ∀ g : CacheFile, loadForUpdate g = Except.ok ([], none) →
      ∃ out, update_cache deliver profiles g n = Except.ok out := by
    intro g hg
    rcases eq_or_ne profiles [] with hp | hp
    · refine ⟨(g, [Ev.load]), ?_⟩
      subst hp
      simp [update_cache, hg, pySetDiff]
    · exact ⟨_, update_cache_empty_load deliver profiles g n hg hp⟩
  rcases h with h | h <;> subst h
  · exact ⟨rfl, hup CacheFile.missing rfl, rfl⟩
  · exact ⟨rfl, hup CacheFile.invalidJson rfl, rfl⟩

/-- Witness for load_recovery_missing_or_invalid with a missing cache file. -/
theorem load_recovery_missing_or_invalid_witness :
    loadForUpdate CacheFile.missing = Except.ok ([], none) ∧
    (∃ out, update_cache (fun _ _ => true) ["a"] CacheFile.missing "t"
      = Except.ok out) ∧
    remove_stale_profiles (fun _ _ => true) ["a"] CacheFile.missing "t"
      = Except.ok (CacheFile.missing, [Ev.load]) :=
  load_recovery_missing_or_invalid (fun _ _ => true) ["a"] CacheFile.missing "t"
    (Or.inl rfl)

/-- Counterexample to C4 as stated: an unreadable-but-present cache file
(open raises an OSError other than FileNotFoundError, e.g. permission denied)
makes both phases raise instead of recovering, and well-formed JSON without a
"profiles" key makes the add phase raise KeyError at line 95. -/
theorem load_recovery_counterexample :
    update_cache (fun _ _ => true) ["a"] CacheFile.readError "t"
        = Except.error PyError.osError ∧
    remove_stale_profiles (fun _ _ => true) ["a"] CacheFile.readError "t"
        = Except.error PyError.osError ∧
    update_cache (fun _ _ => true) ["a"] (CacheFile.valid none none) "t"
        = Except.error PyError.keyError :=
  ⟨rfl, rfl, rfl⟩

/-- C5: Empty-fetch gate.  A failing page makes fetch_profiles report the
empty list, and whenever the fetched list is empty main() skips the whole
reconciliation: no phase runs, no notification is attempted, and the cache
file is left exactly as it was. -/
theorem empty_fetch_no_reconcile (deliver : String → EventKind → Bool)
    (pages : List (Option (List String))) (file : CacheFile) (n1 n2 : String)
    (h : none ∈ pages ∨ fetch_profiles pages = []) :
    fetch_profiles pages = [] ∧
    script_main deliver pages file n1 n2 = Except.ok (file, []) := by
  have hf : fetch_profiles pages = [] := by
    rcases h with h | h
    · exact fetch_go_of_fail pages h []
    · exact h
  exact ⟨hf, by simp [script_main, main_run, hf]⟩

/-- Witness for empty_fetch_no_reconcile: a single failing page, prior
members {x}. -/
theorem empty_fetch_no_reconcile_witness :
    fetch_profiles [none] = [] ∧
    script_main (fun _ _ => true) [none] (CacheFile.valid (some ["x"]) none)
        "t1" "t2"
      = Except.ok (CacheFile.valid (some ["x"]) none, []) :=
  empty_fetch_no_reconcile (fun _ _ => true) [none]
    (CacheFile.valid (some ["x"]) none) "t1" "t2" (Or.inl (by simp))

/-- C6: Notification-per-delta.  In every run that reconciles (non-empty
fetched list, well-formed prior record), the number of joined attempts equals
the cardinality of fetched - prior, the number of left attempts equals the
cardinality of prior - fetched, no email is attempted twice, and every
attempt's email lies in the corresponding difference set (so nothing outside
the two sets is notified). -/
theorem notification_per_delta (deliver : String → EventKind → Bool)
    (profiles ps : List String) (lu : Option String) (n1 n2 : String)
    (hne : profiles ≠ []) :
    ∃ qs lu2 t,
      main_run deliver profiles (CacheFile.valid (some ps) lu) n1 n2
        = Except.ok (CacheFile.valid (some qs) lu2, t) ∧
      (joinedEmails t).length = (profiles.toFinset \ ps.toFinset).card ∧
      (leftEmails t).length = (ps.toFinset \ profiles.toFinset).card ∧
      (joinedEmails t).Nodup ∧ (leftEmails t).Nodup ∧
      ∀ a ∈ notifies t,
        (a.isJoined = true → a.email ∈ profiles.toFinset \ ps.toFinset) ∧
        (a.isJoined = false → a.email ∈ ps.toFinset \ profiles.toFinset) := by
  obtain ⟨qs, lu2, t, hrun, -, hjn, hln, hj, hl, -, -, -⟩ :=
    runPhases_valid_some deliver profiles ps lu n1 n2
  refine ⟨qs, lu2, t, ?_, ?_, ?_, hjn, hln, ?_⟩
  · simp only [main_run]
    rw [if_neg (by simpa [List.isEmpty_iff] using hne)]
    exact hrun
  · rw [← hj, List.toFinset_card_of_nodup hjn]
  · rw [← hl, List.toFinset_card_of_nodup hln]
  · intro a ha
    constructor
    · intro hk
      have hmem : a.email ∈ joinedEmails t :=
        List.mem_map.mpr ⟨a, List.mem_filter.mpr ⟨ha, hk⟩, rfl⟩
      rw [← hj]
      exact List.mem_toFinset.mpr hmem
    · intro hk
      have hmem : a.email ∈ leftEmails t :=
        List.mem_map.mpr ⟨a, List.mem_filter.mpr ⟨ha, by simp [hk]⟩, rfl⟩
      rw [← hl]
      exact List.mem_toFinset.mpr hmem

/-- Witness for notification_per_delta: prior {a, b}, fetched [b, c]. -/
theorem notification_per_delta_witness :
    ∃ qs lu2 t,
      main_run (fun _ _ => true) ["b", "c"]
          (CacheFile.valid (some ["a", "b"]) none) "t1" "t2"
        = Except.ok (CacheFile.valid (some qs) lu2, t) ∧
      (joinedEmails t).length
        = ((["b", "c"] : List String).toFinset
            \ (["a", "b"] : List String).toFinset).card ∧
      (leftEmails t).length
        = ((["a", "b"] : List String).toFinset
            \ (["b", "c"] : List String).toFinset).card ∧
      (joinedEmails t).Nodup ∧ (leftEmails t).Nodup ∧
      ∀ a ∈ notifies t,
        (a.isJoined = true → a.email ∈ (["b", "c"] : List String).toFinset
            \ (["a", "b"] : List String).toFinset) ∧
        (a.isJoined = false → a.email ∈ (["a", "b"] : List String).toFinset
            \ (["b", "c"] : List String).toFinset) :=
  notification_per_delta (fun _ _ => true) ["b", "c"] ["a", "b"] none
    "t1" "t2" (by decide)

/-- C7: Notification-failure isolation.  The run's outcome with the delivery
outcomes erased — the final cache file, whether the run aborts, and the full
ordered sequence of store reads, store writes, and notification attempts —
is identical for every delivery oracle: a failed delivery aborts nothing,
blocks no later attempt, is not retried, and does not keep the identity from
being recorded in the new persisted state. -/
theorem notifier_failure_isolated (d1 d2 : String → EventKind → Bool)
    (profiles : List String) (file : CacheFile) (n1 n2 : String) :
    stripRun (main_run d1 profiles file n1 n2)
      = stripRun (main_run d2 profiles file n1 n2) := by
  by_cases hp : profiles.isEmpty
  · simp [main_run, hp]
  · simp only [main_run, if_neg hp]
    exact runPhases_strip_eq d1 d2 profiles file n1 n2

/-- C8: Idempotence.  After a successful run from any well-formed prior
record with a non-empty fetched list, a second run with the same fetched list
and no intervening state change leaves the record untouched, attempts no
notification, and performs no store write. -/
theorem idempotent_second_run (deliver : String → EventKind → Bool)
    (profiles ps : List String) (lu : Option String) (n1 n2 n3 n4 : String)
    (hne : profiles ≠ []) :
    ∃ f2 t t2,
      main_run deliver profiles (CacheFile.valid (some ps) lu) n1 n2
        = Except.ok (f2, t) ∧
      main_run deliver profiles f2 n3 n4 = Except.ok (f2, t2) ∧
      notifies t2 = [] ∧ t2.filter Ev.isSave = [] := by
  obtain ⟨qs, lu2, t, hrun, hqs, -, -, -, -, -, -, -⟩ :=
    runPhases_valid_some deliver profiles ps lu n1 n2
  have hA2 : pySetDiff profiles qs = [] := by
    apply pySetDiff_eq_nil_iff.mpr
    rw [hqs]
  have hB2 : pySetDiff qs profiles = [] := by
    apply pySetDiff_eq_nil_iff.mpr
    rw [hqs]
  refine ⟨CacheFile.valid (some qs) lu2, t, [Ev.load, Ev.load], ?_, ?_, rfl, rfl⟩
  · simp only [main_run]
    rw [if_neg (by simpa [List.isEmpty_iff] using hne)]
    exact hrun
  · simp only [main_run]
    rw [if_neg (by simpa [List.isEmpty_iff] using hne)]
    simp [runPhases, update_cache_eq_no_new deliver profiles qs lu2 n3 hA2,
          remove_eq_no_stale deliver profiles qs lu2 n4 hB2]

/-- Witness for idempotent_second_run: prior {a}, fetched [b]. -/
theorem idempotent_second_run_witness :
    ∃ f2 t t2,
      main_run (fun _ _ => true) ["b"] (CacheFile.valid (some ["a"]) none)
          "t1" "t2"
        = Except.ok (f2, t) ∧
      main_run (fun _ _ => true) ["b"] f2 "t3" "t4" = Except.ok (f2, t2) ∧
      notifies t2 = [] ∧ t2.filter Ev.isSave = [] :=
  idempotent_second_run (fun _ _ => true) ["b"] ["a"] none "t1" "t2" "t3" "t4"
    (by decide)

/-- C9: last_updated change discipline.  In every reconciling run from a
well-formed prior record, last_updated is stamped with the removal phase's
current timestamp when the removed set is non-empty, with the add phase's
current timestamp when only the added set is non-empty, and when both
differences are empty the record (members and last_updated alike) is left
unchanged and no store write occurs. -/
theorem last_updated_iff_change (deliver : String → EventKind → Bool)
    (profiles ps : List String) (lu : Option String) (n1 n2 : String)
    (hne : profiles ≠ []) :
    ∃ qs lu2 t,
      main_run deliver profiles (CacheFile.valid (some ps) lu) n1 n2
        = Except.ok (CacheFile.valid (some qs) lu2, t) ∧
      (ps.toFinset \ profiles.toFinset ≠ ∅ → lu2 = some n2) ∧
      (ps.toFinset \ profiles.toFinset = ∅ → profiles.toFinset \ ps.toFinset ≠ ∅ →
        lu2 = some n1) ∧
      (profiles.toFinset \ ps.toFinset = ∅ → ps.toFinset \ profiles.toFinset = ∅ →
        qs = ps ∧ lu2 = lu ∧ t.filter Ev.isSave = []) := by
  obtain ⟨qs, lu2, t, hrun, -, -, -, -, -, h7, h8, h9⟩ :=
    runPhases_valid_some deliver profiles ps lu n1 n2
  refine ⟨qs, lu2, t, ?_, h7, h8, h9⟩
  simp only [main_run]
  rw [if_neg (by simpa [List.isEmpty_iff] using hne)]
  exact hrun

/-- Witness for last_updated_iff_change: prior {a}, fetched [a] (no change,
so no write and last_updated keeps its prior value). -/
theorem last_updated_iff_change_witness :
    ∃ qs lu2 t,
      main_run (fun _ _ => true) ["a"]
          (CacheFile.valid (some ["a"]) (some "t0")) "t1" "t2"
        = Except.ok (CacheFile.valid (some qs) lu2, t) ∧
      ((["a"] : List String).toFinset \ (["a"] : List String).toFinset ≠ ∅ →
        lu2 = some "t2") ∧
      ((["a"] : List String).toFinset \ (["a"] : List String).toFinset = ∅ →
        (["a"] : List String).toFinset \ (["a"] : List String).toFinset ≠ ∅ →
        lu2 = some "t1") ∧
      ((["a"] : List String).toFinset \ (["a"] : List String).toFinset = ∅ →
        (["a"] : List String).toFinset \ (["a"] : List String).toFinset = ∅ →
        qs = ["a"] ∧ lu2 = some "t0" ∧ t.filter Ev.isSave = []) :=
  last_updated_iff_change (fun _ _ => true) ["a"] ["a"] (some "t0") "t1" "t2"
    (by decide)

/-- C10 (as amended): whenever the add phase of a run with a non-empty
fetched list completes without raising, the cache file it leaves behind is a
well-formed record (in particular, a missing or invalid-JSON cache forces a
non-empty added set and a write), so the removal phase's cache-read-failure
branch is never taken in a full run; an unreadable cache instead makes the
add phase raise, aborting the run before the removal phase starts. -/
theorem stale_skip_unreachable (deliver : String → EventKind → Bool)
    (profiles : List String) (file : CacheFile) (n1 : String)
    (f1 : CacheFile) (t1 : List Ev) (hne : profiles ≠ [])
    (h : update_cache deliver profiles file n1 = Except.ok (f1, t1)) :
    ∃ qs lu1, f1 = CacheFile.valid (some qs) lu1 := by
  cases file with
  | readError => simp [update_cache, loadForUpdate] at h
  | missing =>
    rw [update_cache_empty_load deliver profiles CacheFile.missing n1 rfl hne] at h
    obtain ⟨hf, -⟩ := by simpa using h
    exact ⟨profiles.dedup, some n1, hf.symm⟩
  | invalidJson =>
    rw [update_cache_empty_load deliver profiles CacheFile.invalidJson n1 rfl hne] at h
    obtain ⟨hf, -⟩ := by simpa using h
    exact ⟨profiles.dedup, some n1, hf.symm⟩
  | valid ps? lu =>
    cases ps? with
    | none => simp [update_cache, loadForUpdate] at h
    | some ps =>
      rcases eq_or_ne (pySetDiff profiles ps) [] with hA | hA
      · rw [update_cache_eq_no_new deliver profiles ps lu n1 hA] at h
        obtain ⟨hf, -⟩ := by simpa using h
        exact ⟨ps, lu, hf.symm⟩
      · rw [update_cache_eq_new deliver profiles ps lu n1 hA] at h
        obtain ⟨hf, -⟩ := by simpa using h
        exact ⟨ps ++ pySetDiff profiles ps, some n1, hf.symm⟩

/-- Witness for stale_skip_unreachable: missing cache file, fetched [a]. -/
theorem stale_skip_unreachable_witness :
    ∃ qs lu1, CacheFile.valid (some ["a"]) (some "t1")
      = CacheFile.valid (some qs) lu1 :=
  stale_skip_unreachable (fun _ _ => true) ["a"] CacheFile.missing "t1"
    (CacheFile.valid (some ["a"]) (some "t1"))
    [Ev.load,
     Ev.notify { email := "a", kind := EventKind.joined, success := true },
     Ev.save]
    (by decide) (by rfl)

/-- Counterexample to C10 as stated: with an unreadable (permission-denied)
cache record and a non-empty fetch, the add phase raises an uncaught OSError
and the whole run aborts — the add phase does not find an added set and does
not write a well-formed record before the removal phase. -/
theorem stale_skip_counterexample :
    main_run (fun _ _ => true) ["a"] CacheFile.readError "t1" "t2"
      = Except.error PyError.osError := by
  rfl
